import Mathlib

/-
Verification of the wren-engine semantic-layer core (wren-core).

This file shallowly embeds the data model and the pure operations of
src/wren-core/core/src/mdl/manifest.rs and src/wren-core/core/src/mdl/mod.rs
into Lean 4 and proves the testable properties stated in the specification.

Rust strings are modelled as lists of characters (Lean `List Char`); the
Rust ASCII-only case conversions used by the dialect correspond exactly to
`Char.toLower` and `Char.toUpper` of Lean (both only remap the basic latin
letters; every identifier the dialect leaves unquoted is ASCII-only, so
this models the source faithfully on the inputs where case mapping matters).
-/

namespace Wren

/-- Rust `String`, modelled transparently as its list of characters. -/
abbrev Str := List Char

/-! ## Quoting dialect (WrenDialect, mdl/mod.rs lines 379-405) -/

/-- Rust `non_lowercase` (mdl/mod.rs lines 402-405): true when lower-casing
the string changes it, i.e. the string is not already all-lower-case. -/
def non_lowercase (sql : Str) : Bool :=
  sql.map Char.toLower != sql

/-- Character class of the first character of the regex
`^[a-zA-Z_][a-zA-Z0-9_]*$` used by `identifier_quote_style`. -/
def isWordStart (c : Char) : Bool :=
  (('a' ≤ c && c ≤ 'z') || ('A' ≤ c && c ≤ 'Z')) || c == '_'

/-- Character class `[a-zA-Z0-9_]` of the subsequent characters of the
identifier regex. -/
def isWordChar (c : Char) : Bool :=
  isWordStart c || ('0' ≤ c && c ≤ '9')

/-- Matching of the anchored regex `^[a-zA-Z_][a-zA-Z0-9_]*$` from
`WrenDialect::identifier_quote_style` (mdl/mod.rs line 386). -/
def identifierRegexMatch : Str → Bool
  | [] => false
  | c :: cs => isWordStart c && cs.all isWordChar

/-- Rust `WrenDialect::identifier_quote_style` (mdl/mod.rs lines 385-395).
The keyword list `ALL_KEYWORDS` comes from the external sqlparser crate and
is kept as a parameter. Quote with a double quote when the upper-cased
identifier is a keyword, or the identifier fails the identifier regex, or
it is not all-lower-case; otherwise emit no quote. -/
def identifier_quote_style (keywords : List Str) (identifier : Str) : Option Char :=
  if keywords.contains (identifier.map Char.toUpper)
      || !identifierRegexMatch identifier
      || non_lowercase identifier then
    some '"'
  else
    none

/-- Character class of the first character of the regex
`^[a-z_][a-z0-9_]*$` that the specification uses to describe the
identifiers emitted unquoted. -/
def isLowerWordStart (c : Char) : Bool :=
  ('a' ≤ c && c ≤ 'z') || c == '_'

/-- Character class `[a-z0-9_]` of the subsequent characters of the
lower-case identifier regex of the specification. -/
def isLowerWordChar (c : Char) : Bool :=
  isLowerWordStart c || ('0' ≤ c && c ≤ '9')

/-- Matching of the anchored regex `^[a-z_][a-z0-9_]*$` from the
specification. -/
def lowercaseIdentifierMatch : Str → Bool
  | [] => false
  | c :: cs => isLowerWordStart c && cs.all isLowerWordChar

theorem char_toNat_ofNat {n : Nat} (h : n < 0xD800) : (Char.ofNat n).toNat = n := by
  rw [Char.ofNat, dif_pos (Or.inl h)]
  rfl

theorem char_toLower_eq_self_of_not_upper {c : Char}
    (h : ¬(65 ≤ c.toNat ∧ c.toNat ≤ 90)) : Char.toLower c = c := by
  rw [Char.toLower]
  simp only [ge_iff_le]
  rw [if_neg h]

theorem char_toLower_ne_self_of_upper {c : Char}
    (h1 : 65 ≤ c.toNat) (h2 : c.toNat ≤ 90) : Char.toLower c ≠ c := by
  intro h
  have h3 := congrArg Char.toNat h
  rw [Char.toLower] at h3
  simp only [ge_iff_le] at h3
  rw [if_pos ⟨h1, h2⟩] at h3
  rw [char_toNat_ofNat (by omega)] at h3
  omega

theorem char_le_iff_toNat_le {a b : Char} : a ≤ b ↔ a.toNat ≤ b.toNat :=
  ⟨fun h => h, fun h => h⟩

theorem char_eq_iff_toNat_eq {a b : Char} : a = b ↔ a.toNat = b.toNat := by
  constructor
  · intro h
    rw [h]
  · intro h
    apply Char.ext
    apply UInt32.toBitVec_injective
    apply BitVec.toNat_injective
    exact h

theorem isWordStart_iff {c : Char} :
    isWordStart c = true ↔
      (97 ≤ c.toNat ∧ c.toNat ≤ 122) ∨ (65 ≤ c.toNat ∧ c.toNat ≤ 90) ∨ c.toNat = 95 := by
  simp only [isWordStart, Bool.or_eq_true, Bool.and_eq_true, decide_eq_true_eq, beq_iff_eq,
    char_le_iff_toNat_le, char_eq_iff_toNat_eq, show Char.toNat 'a' = 97 from rfl,
    show Char.toNat 'z' = 122 from rfl, show Char.toNat 'A' = 65 from rfl,
    show Char.toNat 'Z' = 90 from rfl, show Char.toNat '_' = 95 from rfl]
  tauto

theorem isWordChar_iff {c : Char} :
    isWordChar c = true ↔
      (97 ≤ c.toNat ∧ c.toNat ≤ 122) ∨ (65 ≤ c.toNat ∧ c.toNat ≤ 90) ∨ c.toNat = 95 ∨
      (48 ≤ c.toNat ∧ c.toNat ≤ 57) := by
  simp only [isWordChar, Bool.or_eq_true, isWordStart_iff, Bool.and_eq_true,
    decide_eq_true_eq, char_le_iff_toNat_le, show Char.toNat '0' = 48 from rfl,
    show Char.toNat '9' = 57 from rfl]
  tauto

theorem isLowerWordStart_iff {c : Char} :
    isLowerWordStart c = true ↔ (97 ≤ c.toNat ∧ c.toNat ≤ 122) ∨ c.toNat = 95 := by
  simp only [isLowerWordStart, Bool.or_eq_true, Bool.and_eq_true, decide_eq_true_eq,
    beq_iff_eq, char_le_iff_toNat_le, char_eq_iff_toNat_eq,
    show Char.toNat 'a' = 97 from rfl, show Char.toNat 'z' = 122 from rfl,
    show Char.toNat '_' = 95 from rfl]

theorem isLowerWordChar_iff {c : Char} :
    isLowerWordChar c = true ↔
      (97 ≤ c.toNat ∧ c.toNat ≤ 122) ∨ c.toNat = 95 ∨ (48 ≤ c.toNat ∧ c.toNat ≤ 57) := by
  simp only [isLowerWordChar, Bool.or_eq_true, isLowerWordStart_iff, Bool.and_eq_true,
    decide_eq_true_eq, char_le_iff_toNat_le, show Char.toNat '0' = 48 from rfl,
    show Char.toNat '9' = 57 from rfl]
  tauto

theorem wordStart_toLower_fixed_iff {c : Char} (h : isWordStart c = true) :
    (Char.toLower c = c ↔ isLowerWordStart c = true) := by
  rw [isWordStart_iff] at h
  rw [isLowerWordStart_iff]
  rcases h with h | h | h
  · constructor
    · intro _
      exact Or.inl h
    · intro _
      exact char_toLower_eq_self_of_not_upper (by omega)
  · constructor
    · intro hc
      exact absurd hc (char_toLower_ne_self_of_upper h.1 h.2)
    · intro hc
      omega
  · constructor
    · intro _
      exact Or.inr h
    · intro _
      exact char_toLower_eq_self_of_not_upper (by omega)

theorem wordChar_toLower_fixed_iff {c : Char} (h : isWordChar c = true) :
    (Char.toLower c = c ↔ isLowerWordChar c = true) := by
  rw [isWordChar_iff] at h
  rw [isLowerWordChar_iff]
  rcases h with h | h | h | h
  · constructor
    · intro _
      exact Or.inl h
    · intro _
      exact char_toLower_eq_self_of_not_upper (by omega)
  · constructor
    · intro hc
      exact absurd hc (char_toLower_ne_self_of_upper h.1 h.2)
    · intro hc
      omega
  · constructor
    · intro _
      exact Or.inr (Or.inl h)
    · intro _
      exact char_toLower_eq_self_of_not_upper (by omega)
  · constructor
    · intro _
      exact Or.inr (Or.inr h)
    · intro _
      exact char_toLower_eq_self_of_not_upper (by omega)

theorem map_toLower_eq_self_iff {l : Str} :
    l.map Char.toLower = l ↔ ∀ c ∈ l, Char.toLower c = c := by
  induction l with
  | nil => simp
  | cons c cs ih =>
    simp only [List.map_cons, List.cons.injEq, List.mem_cons, ih]
    constructor
    · rintro ⟨h1, h2⟩ x hx
      rcases hx with rfl | hx
      · exact h1
      · exact h2 x hx
    · intro h
      exact ⟨h c (Or.inl rfl), fun x hx => h x (Or.inr hx)⟩

theorem lowercaseMatch_iff_regex_and_lower {identifier : Str} :
    lowercaseIdentifierMatch identifier = true ↔
      (identifierRegexMatch identifier = true ∧ non_lowercase identifier = false) := by
  cases identifier with
  | nil => simp [lowercaseIdentifierMatch, identifierRegexMatch]
  | cons c cs =>
    simp only [lowercaseIdentifierMatch, identifierRegexMatch, non_lowercase,
      Bool.and_eq_true, List.all_eq_true, bne_eq_false_iff_eq, List.map_cons,
      List.cons.injEq, map_toLower_eq_self_iff]
    constructor
    · rintro ⟨h1, h2⟩
      have hs : isWordStart c = true := by
        rw [isWordStart_iff]
        rw [isLowerWordStart_iff] at h1
        omega
      have hcs : ∀ x ∈ cs, isWordChar x = true := by
        intro x hx
        have := h2 x hx
        rw [isWordChar_iff]
        rw [isLowerWordChar_iff] at this
        omega
      refine ⟨⟨hs, hcs⟩, (wordStart_toLower_fixed_iff hs).mpr h1, ?_⟩
      intro x hx
      exact (wordChar_toLower_fixed_iff (hcs x hx)).mpr (h2 x hx)
    · rintro ⟨⟨h1, h2⟩, h3, h4⟩
      refine ⟨(wordStart_toLower_fixed_iff h1).mp h3, ?_⟩
      intro x hx
      exact (wordChar_toLower_fixed_iff (h2 x hx)).mp (h4 x hx)

/-- Claim C1: the dialect leaves an identifier unquoted exactly when it
matches the lower-case identifier regex and its upper-cased form is not in
the keyword list of the engine, and it returns the double-quote character
exactly when the upper-cased identifier is a keyword, or the identifier
fails the identifier regex, or it is not already all-lower-case. -/
theorem identifier_quote_style_spec (keywords : List Str) (identifier : Str) :
    (identifier_quote_style keywords identifier = none ↔
      (lowercaseIdentifierMatch identifier = true ∧
        keywords.contains (identifier.map Char.toUpper) = false))
    ∧ (identifier_quote_style keywords identifier = some '"' ↔
      (keywords.contains (identifier.map Char.toUpper) = true ∨
        identifierRegexMatch identifier = false ∨
        non_lowercase identifier = true)) := by
  unfold identifier_quote_style
  by_cases h : (keywords.contains (identifier.map Char.toUpper)
      || !identifierRegexMatch identifier
      || non_lowercase identifier) = true
  · rw [if_pos h]
    simp only [Bool.or_eq_true, Bool.not_eq_true', Bool.not_eq_false] at h
    constructor
    · constructor
      · intro hc
        exact absurd hc (by simp)
      · rintro ⟨h1, h2⟩
        rw [lowercaseMatch_iff_regex_and_lower] at h1
        rcases h with (h | h) | h
        · rw [h] at h2
          exact absurd h2 (by simp)
        · rw [h1.1] at h
          exact absurd h (by simp)
        · rw [h1.2] at h
          exact absurd h (by simp)
    · constructor
      · intro _
        rcases h with (h | h) | h
        · exact Or.inl h
        · exact Or.inr (Or.inl (by simp [h]))
        · exact Or.inr (Or.inr h)
      · intro _
        rfl
  · rw [if_neg h]
    simp only [Bool.or_eq_true, Bool.not_eq_true', Bool.not_eq_false, not_or,
      Bool.not_eq_true] at h
    obtain ⟨⟨h1, h2⟩, h3⟩ := h
    constructor
    · constructor
      · intro _
        exact ⟨lowercaseMatch_iff_regex_and_lower.mpr ⟨h2, h3⟩, h1⟩
      · intro _
        rfl
    · constructor
      · intro hc
        exact absurd hc (by simp)
      · rintro (h | h | h)
        · rw [h1] at h
          exact absurd h (by simp)
        · rw [h2] at h
          exact absurd h (by simp)
        · rw [h3] at h
          exact absurd h (by simp)

/-! ## Table references (manifest.rs lines 52-131) -/

/-- Rust struct `TableReference` (manifest.rs lines 55-60): the three-field
object form of a table reference. -/
structure TableReference where
  catalog : Option Str
  schema : Option Str
  table : Option Str
deriving DecidableEq

/-- Rust `table_reference::deserialize` (manifest.rs lines 62-88): flatten a
three-field object into a dotted string. Each present non-empty catalog and
schema contributes its value followed by a dot, a present non-empty table
contributes its value; an entirely empty result is None. -/
def table_reference_deserialize (tr : TableReference) : Option Str :=
  let r1 : Str :=
    match (tr.catalog).filter (fun c => !c.isEmpty) with
    | some catalog => catalog ++ ['.']
    | none => []
  let r2 : Str :=
    match (tr.schema).filter (fun s => !s.isEmpty) with
    | some schema => schema ++ ['.']
    | none => []
  let r3 : Str :=
    match (tr.table).filter (fun t => !t.isEmpty) with
    | some table => table
    | none => []
  let result := r1 ++ r2 ++ r3
  if result.isEmpty then none else some result

/-- Rust `table_reference::serialize` (manifest.rs lines 90-130): split the
dotted string on dots, drop empty segments, reject more than 3 segments,
and spread the remaining segments over (catalog, schema, table) from the
right. -/
def table_reference_serialize (table_ref : Option Str) : Except Str TableReference :=
  match table_ref with
  | some tref =>
      if ((tref.splitOn '.').filter (fun p => !p.isEmpty)).length > 3 then
        Except.error ("Invalid table reference: ".data ++ tref)
      else
        match (tref.splitOn '.').filter (fun p => !p.isEmpty) with
        | [p0, p1, p2] => Except.ok ⟨some p0, some p1, some p2⟩
        | [p0, p1] => Except.ok ⟨none, some p0, some p1⟩
        | [p0] => Except.ok ⟨none, none, some p0⟩
        | _ => Except.ok ⟨none, none, none⟩
  | none => Except.ok ⟨none, none, none⟩

theorem splitOn_dot_ne_nil (s : Str) : s.splitOn '.' ≠ [] := by
  simp only [List.splitOn]
  exact List.splitOnP_ne_nil _ s

theorem filter_nonempty_eq_self {parts : List Str} (h : ∀ p ∈ parts, p ≠ []) :
    parts.filter (fun p => !p.isEmpty) = parts := by
  apply List.filter_eq_self.mpr
  intro a ha
  have := h a ha
  cases a with
  | nil => exact absurd rfl this
  | cons x xs => rfl

theorem nonempty_isEmpty_false {a : Str} (h : a ≠ []) : a.isEmpty = false := by
  cases a with
  | nil => exact absurd rfl h
  | cons x xs => rfl

/-- Serializing a dotted string of 1 to 3 non-empty segments succeeds and
deserializing the resulting three-field object returns the string. -/
theorem table_reference_ser_deser {s : Str}
    (hlen : (s.splitOn '.').length ≤ 3)
    (hne : ∀ p ∈ s.splitOn '.', p ≠ []) :
    ∃ tr, table_reference_serialize (some s) = Except.ok tr ∧
          table_reference_deserialize tr = some s := by
  have hs : List.intercalate ['.'] (s.splitOn '.') = s := List.intercalate_splitOn s '.'
  have hnil : s.splitOn '.' ≠ [] := splitOn_dot_ne_nil s
  have hfil : (s.splitOn '.').filter (fun p => !p.isEmpty) = s.splitOn '.' :=
    filter_nonempty_eq_self hne
  rcases hP : s.splitOn '.' with _ | ⟨a, _ | ⟨b, _ | ⟨c, _ | ⟨d, t⟩⟩⟩⟩
  · exact absurd hP hnil
  · have ha : a ≠ [] := hne a (by rw [hP]; exact List.mem_cons_self a [])
    refine ⟨⟨none, none, some a⟩, ?_, ?_⟩
    · simp only [table_reference_serialize, hP] at hfil ⊢
      rw [hfil]
      simp
    · simp only [table_reference_deserialize, Option.filter, nonempty_isEmpty_false ha,
        Bool.not_false]
      rw [hP] at hs
      simp only [List.intercalate, List.intersperse, List.flatten, List.append_nil] at hs
      subst hs
      simp [nonempty_isEmpty_false ha]
  · have ha : a ≠ [] := hne a (by rw [hP]; exact List.mem_cons_self a [b])
    have hb : b ≠ [] := hne b (by rw [hP]; simp)
    refine ⟨⟨none, some a, some b⟩, ?_, ?_⟩
    · simp only [table_reference_serialize, hP] at hfil ⊢
      rw [hfil]
      simp
    · simp only [table_reference_deserialize, Option.filter, nonempty_isEmpty_false ha,
        nonempty_isEmpty_false hb, Bool.not_false]
      rw [hP] at hs
      simp only [List.intercalate, List.intersperse, List.flatten, List.append_nil] at hs
      rw [← hs]
      obtain ⟨x, xs, rfl⟩ := List.exists_cons_of_ne_nil ha
      simp
  · have ha : a ≠ [] := hne a (by rw [hP]; exact List.mem_cons_self a [b, c])
    have hb : b ≠ [] := hne b (by rw [hP]; simp)
    have hc : c ≠ [] := hne c (by rw [hP]; simp)
    refine ⟨⟨some a, some b, some c⟩, ?_, ?_⟩
    · simp only [table_reference_serialize, hP] at hfil ⊢
      rw [hfil]
      simp
    · simp only [table_reference_deserialize, Option.filter, nonempty_isEmpty_false ha,
        nonempty_isEmpty_false hb, nonempty_isEmpty_false hc, Bool.not_false]
      rw [hP] at hs
      simp only [List.intercalate, List.intersperse, List.flatten, List.append_nil] at hs
      rw [← hs]
      obtain ⟨x, xs, rfl⟩ := List.exists_cons_of_ne_nil ha
      simp
  · rw [hP] at hlen
    simp at hlen

/-- Claim C2: a valid table reference string (a dotted path of 1 to 3
non-empty segments) serializes to the three-field object form and
deserializes back to the original string; a 2-segment string maps to
(schema, table) and a 1-segment string maps to (table). -/
theorem table_reference_roundtrip (s : Str)
    (hlen : (s.splitOn '.').length ≤ 3)
    (hne : ∀ p ∈ s.splitOn '.', p ≠ []) :
    (∃ tr, table_reference_serialize (some s) = Except.ok tr ∧
           table_reference_deserialize tr = some s)
    ∧ (∀ a b, s.splitOn '.' = [a, b] →
        table_reference_serialize (some s) =
          Except.ok ⟨none, some a, some b⟩ ∧
        table_reference_deserialize ⟨none, some a, some b⟩ = some s)
    ∧ (∀ a, s.splitOn '.' = [a] →
        table_reference_serialize (some s) = Except.ok ⟨none, none, some a⟩ ∧
        table_reference_deserialize ⟨none, none, some a⟩ = some s) := by
  obtain ⟨tr, h1, h2⟩ := table_reference_ser_deser hlen hne
  refine ⟨⟨tr, h1, h2⟩, ?_, ?_⟩
  · intro a b hP
    have ha : a ≠ [] := hne a (by rw [hP]; exact List.mem_cons_self a [b])
    have hb : b ≠ [] := hne b (by rw [hP]; simp)
    have hfil : (s.splitOn '.').filter (fun p => !p.isEmpty) = s.splitOn '.' :=
      filter_nonempty_eq_self hne
    have hser : table_reference_serialize (some s) = Except.ok ⟨none, some a, some b⟩ := by
      simp only [table_reference_serialize, hP] at hfil ⊢
      rw [hfil]
      simp
    refine ⟨hser, ?_⟩
    rw [hser] at h1
    cases h1
    exact h2
  · intro a hP
    have ha : a ≠ [] := hne a (by rw [hP]; exact List.mem_cons_self a [])
    have hfil : (s.splitOn '.').filter (fun p => !p.isEmpty) = s.splitOn '.' :=
      filter_nonempty_eq_self hne
    have hser : table_reference_serialize (some s) = Except.ok ⟨none, none, some a⟩ := by
      simp only [table_reference_serialize, hP] at hfil ⊢
      rw [hfil]
      simp
    refine ⟨hser, ?_⟩
    rw [hser] at h1
    cases h1
    exact h2

/-- Closed witness for claim C2 at the concrete string a.b. -/
theorem table_reference_roundtrip_witness :
    ("a.b".data.splitOn '.').length ≤ 3 ∧ (∀ p ∈ "a.b".data.splitOn '.', p ≠ []) ∧
    (∃ tr, table_reference_serialize (some "a.b".data) = Except.ok tr ∧
           table_reference_deserialize tr = some "a.b".data) :=
  ⟨by decide, by decide,
    (table_reference_roundtrip "a.b".data (by decide) (by decide)).1⟩

/-- Claim C7: serializing a table reference string that splits into more
than 3 non-empty dotted segments fails with the invalid-table-reference
message, and serialization succeeds for at most 3 segments. -/
theorem table_reference_serialize_error_spec (s : Str) :
    (((s.splitOn '.').filter (fun p => !p.isEmpty)).length > 3 →
      table_reference_serialize (some s) =
        Except.error ("Invalid table reference: ".data ++ s))
    ∧ (((s.splitOn '.').filter (fun p => !p.isEmpty)).length ≤ 3 →
      ∃ tr, table_reference_serialize (some s) = Except.ok tr) := by
  constructor
  · intro h
    simp only [table_reference_serialize]
    rw [if_pos h]
  · intro h
    simp only [table_reference_serialize]
    rw [if_neg (by omega)]
    rcases hf : (s.splitOn '.').filter (fun p => !p.isEmpty) with _ | ⟨a, _ | ⟨b, _ | ⟨c, _ | ⟨d, t⟩⟩⟩⟩
    · exact ⟨⟨none, none, none⟩, by rw [hf]⟩
    · exact ⟨⟨none, none, some a⟩, by rw [hf]⟩
    · exact ⟨⟨none, some a, some b⟩, by rw [hf]⟩
    · exact ⟨⟨some a, some b, some c⟩, by rw [hf]⟩
    · rw [hf] at h
      simp at h

/-- Closed witness for claim C7 at the concrete strings a.b.c.d and a.b.c. -/
theorem table_reference_serialize_error_witness :
    (("a.b.c.d".data.splitOn '.').filter (fun p => !p.isEmpty)).length > 3 ∧
    table_reference_serialize (some "a.b.c.d".data) =
      Except.error ("Invalid table reference: ".data ++ "a.b.c.d".data) ∧
    (("a.b.c".data.splitOn '.').filter (fun p => !p.isEmpty)).length ≤ 3 ∧
    (∃ tr, table_reference_serialize (some "a.b.c".data) = Except.ok tr) :=
  ⟨by decide,
    (table_reference_serialize_error_spec "a.b.c.d".data).1 (by decide),
    by decide,
    (table_reference_serialize_error_spec "a.b.c".data).2 (by decide)⟩

/-- Contribution of the catalog and schema fields to the flattened table
reference string, written from the words of claim C10: a present non-empty
value contributes itself followed by a dot. -/
def dottedContribution (o : Option Str) : Str :=
  match o with
  | some v => if v = [] then [] else v ++ ['.']
  | none => []

/-- Contribution of the table field to the flattened table reference
string, written from the words of claim C10: a present non-empty value
contributes itself. -/
def tableContribution (o : Option Str) : Str :=
  match o with
  | some v => if v = [] then [] else v
  | none => []

/-- Claim C10: deserializing a table reference object yields None exactly
when catalog, schema and table are all absent or empty; otherwise it
yields Some of the concatenation of the per-field contributions, and when
the table is absent or empty, any produced string ends in a dot. -/
theorem table_reference_deserialize_spec (tr : TableReference) :
    (table_reference_deserialize tr =
      (if dottedContribution tr.catalog ++ dottedContribution tr.schema ++
            tableContribution tr.table = [] then none
        else some (dottedContribution tr.catalog ++ dottedContribution tr.schema ++
            tableContribution tr.table)))
    ∧ (table_reference_deserialize tr = none ↔
        ((tr.catalog = none ∨ tr.catalog = some []) ∧
         (tr.schema = none ∨ tr.schema = some []) ∧
         (tr.table = none ∨ tr.table = some [])))
    ∧ ((tr.table = none ∨ tr.table = some []) →
        ∀ s, table_reference_deserialize tr = some s → s.getLast? = some '.') := by
  obtain ⟨catalog, schema, table⟩ := tr
  have hcontrib : ∀ o : Option Str,
      (match o.filter (fun c => !c.isEmpty) with
        | some v => v ++ ['.']
        | none => ([] : Str)) = dottedContribution o := by
    intro o
    rcases o with _ | v
    · rfl
    · rcases v with _ | ⟨x, xs⟩
      · rfl
      · rfl
  have hcontribT : ∀ o : Option Str,
      (match o.filter (fun c => !c.isEmpty) with
        | some v => v
        | none => ([] : Str)) = tableContribution o := by
    intro o
    rcases o with _ | v
    · rfl
    · rcases v with _ | ⟨x, xs⟩
      · rfl
      · rfl
  refine ⟨?_, ?_, ?_⟩
  · simp only [table_reference_deserialize, hcontrib, hcontribT]
    rcases hE : dottedContribution catalog ++ dottedContribution schema ++
        tableContribution table with _ | ⟨x, xs⟩
    · simp [hE]
    · simp [hE]
  · simp only [table_reference_deserialize, hcontrib, hcontribT]
    rcases catalog with _ | c
    · rcases schema with _ | sc
      · rcases table with _ | t
        · simp [dottedContribution, tableContribution]
        · rcases t with _ | ⟨x, xs⟩ <;>
            simp [dottedContribution, tableContribution]
      · rcases table with _ | t
        · rcases sc with _ | ⟨y, ys⟩ <;>
            simp [dottedContribution, tableContribution]
        · rcases sc with _ | ⟨y, ys⟩ <;> rcases t with _ | ⟨x, xs⟩ <;>
            simp [dottedContribution, tableContribution]
    · rcases schema with _ | sc
      · rcases table with _ | t
        · rcases c with _ | ⟨z, zs⟩ <;>
            simp [dottedContribution, tableContribution]
        · rcases c with _ | ⟨z, zs⟩ <;> rcases t with _ | ⟨x, xs⟩ <;>
            simp [dottedContribution, tableContribution]
      · rcases table with _ | t
        · rcases c with _ | ⟨z, zs⟩ <;> rcases sc with _ | ⟨y, ys⟩ <;>
            simp [dottedContribution, tableContribution]
        · rcases c with _ | ⟨z, zs⟩ <;> rcases sc with _ | ⟨y, ys⟩ <;>
            rcases t with _ | ⟨x, xs⟩ <;>
            simp [dottedContribution, tableContribution]
  · intro hT s hS
    simp only [table_reference_deserialize, hcontrib, hcontribT] at hS
    have hTc : tableContribution table = [] := by
      rcases hT with h | h <;> simp at h <;> rw [h] <;> rfl
    rw [hTc, List.append_nil] at hS
    rcases hE : dottedContribution catalog ++ dottedContribution schema with _ | ⟨x, xs⟩
    · rw [hE] at hS
      simp at hS
    · rw [hE] at hS
      simp only [List.isEmpty_cons, Bool.false_eq_true, if_false] at hS
      cases hS
      have hlast : ∀ o : Option Str, dottedContribution o = [] ∨
          ∃ l : Str, dottedContribution o = l ++ ['.'] := by
        intro o
        rcases o with _ | v
        · exact Or.inl rfl
        · rcases v with _ | ⟨z, zs⟩
          · exact Or.inl rfl
          · exact Or.inr ⟨z :: zs, by simp [dottedContribution]⟩
      rcases hlast schema with h2 | ⟨l2, h2⟩
      · rcases hlast catalog with h1 | ⟨l1, h1⟩
        · rw [h1, h2] at hE
          simp at hE
        · rw [h1, h2, List.append_nil] at hE
          rw [← hE]
          simp
      · rw [h2] at hE
        rw [← List.append_assoc] at hE
        rw [← hE]
        simp

/-- Closed witness for claim C10 at a concrete object with only a schema. -/
theorem table_reference_deserialize_spec_witness :
    ((some "s".data : Option Str) = none ∨ (some "s".data : Option Str) = some []) ∨
    ((table_reference_deserialize ⟨none, some "s".data, none⟩ = some "s.".data) ∧
      "s.".data.getLast? = some '.') :=
  Or.inr ⟨by decide,
    (table_reference_deserialize_spec ⟨none, some "s".data, none⟩).2.2
      (Or.inl rfl) "s.".data (by decide)⟩

/-! ## JoinType (manifest.rs lines 188-216) -/

/-- Rust enum `JoinType` (manifest.rs lines 190-199). -/
inductive JoinType where
  | oneToOne
  | oneToMany
  | manyToOne
  | manyToMany
deriving DecidableEq

/-- Rust `JoinType::is_to_one` (manifest.rs lines 202-204):
`matches!(self, JoinType::OneToOne | JoinType::ManyToOne)`. -/
def JoinType.is_to_one : JoinType → Bool
  | .oneToOne => true
  | .manyToOne => true
  | .oneToMany => false
  | .manyToMany => false

/-- Claim C8: is_to_one returns true exactly for OneToOne and ManyToOne,
and false for OneToMany and ManyToMany. -/
theorem is_to_one_spec (jt : JoinType) :
    (JoinType.is_to_one jt = true ↔ (jt = JoinType.oneToOne ∨ jt = JoinType.manyToOne))
    ∧ (JoinType.is_to_one jt = false ↔ (jt = JoinType.oneToMany ∨ jt = JoinType.manyToMany)) := by
  cases jt <;> simp [JoinType.is_to_one]

/-! ## JSON values and the legacy boolean decoder (manifest.rs lines 133-156) -/

/-- JSON values as handled by serde_json. Numbers are modelled as
integers: the serde_json predicate is_u64 holds exactly for the members
of this fragment in the u64 range, 0 to 2 to the 64th minus 1, and a
fractional number, which is_u64 also rejects, behaves like any other
non-boolean, non-u64 value in the decoder below. -/
inductive Json where
  | null
  | bool (b : Bool)
  | num (n : Int)
  | str (s : Str)
  | arr (elems : List Json)
  | obj (fields : List (Str × Json))

/-- The largest value of the Rust u64 type, 2 to the 64th minus 1: the
upper end of the range the serde_json predicate is_u64 accepts. -/
def u64Max : Int := 18446744073709551615

/-- Rust `bool_from_int::deserialize` (manifest.rs lines 136-148): a JSON
boolean decodes to itself, a JSON number that is_u64 accepts (an integer
between 0 and u64::MAX) decodes to whether it is non-zero, everything
else is an error. -/
def bool_from_int_deserialize (value : Json) : Except Str Bool :=
  match value with
  | .bool b => Except.ok b
  | .num n =>
      if 0 ≤ n ∧ n ≤ u64Max then Except.ok (n != 0)
      else Except.error "invalid type for boolean".data
  | _ => Except.error "invalid type for boolean".data

/-- Rust `bool_from_int::serialize` (manifest.rs lines 150-155): booleans
serialize as plain JSON booleans. -/
def bool_from_int_serialize (value : Bool) : Json :=
  Json.bool value

/-- Counterexample to claim C3: the negative integer -1 and the integer
2 to the 64th are both non-zero JSON integers, yet the decoder rejects
them instead of returning true, because the source only accepts numbers
for which serde_json is_u64 holds. -/
theorem bool_from_int_negative_counterexample :
    bool_from_int_deserialize (Json.num (-1)) =
      Except.error "invalid type for boolean".data ∧
    bool_from_int_deserialize (Json.num (-1)) ≠ Except.ok true ∧
    bool_from_int_deserialize (Json.num 18446744073709551616) =
      Except.error "invalid type for boolean".data ∧
    bool_from_int_deserialize (Json.num 18446744073709551616) ≠ Except.ok true :=
  ⟨rfl, fun h => Except.noConfusion h, rfl, fun h => Except.noConfusion h⟩

/-- Claim C3 as amended: a JSON boolean decodes to itself, the integer 0
decodes to false, any positive integer of the u64 range decodes to true,
and every other JSON value, negative integers and integers above u64::MAX
included, is rejected with an error. -/
theorem bool_from_int_spec :
    (∀ b : Bool, bool_from_int_deserialize (Json.bool b) = Except.ok b)
    ∧ bool_from_int_deserialize (Json.num 0) = Except.ok false
    ∧ (∀ n : Int, 0 < n → n ≤ u64Max →
        bool_from_int_deserialize (Json.num n) = Except.ok true)
    ∧ (∀ j : Json, (∀ b : Bool, j ≠ Json.bool b) →
        (∀ n : Int, 0 ≤ n → n ≤ u64Max → j ≠ Json.num n) →
        bool_from_int_deserialize j = Except.error "invalid type for boolean".data) := by
  refine ⟨fun b => rfl, rfl, ?_, ?_⟩
  · intro n hn hle
    simp only [bool_from_int_deserialize, if_pos (And.intro (le_of_lt hn) hle)]
    have : n ≠ 0 := ne_of_gt hn
    simp [this]
  · intro j hb hn
    match j with
    | .null => rfl
    | .bool b => exact absurd rfl (hb b)
    | .num n =>
      by_cases h : 0 ≤ n ∧ n ≤ u64Max
      · exact absurd rfl (hn n h.1 h.2)
      · simp only [bool_from_int_deserialize]
        rw [if_neg h]
    | .str s => rfl
    | .arr elems => rfl
    | .obj fields => rfl

/-- Closed witness for the amended claim C3 at the inputs 2 and null. -/
theorem bool_from_int_spec_witness :
    (0 : Int) < 2 ∧ (2 : Int) ≤ u64Max ∧
    bool_from_int_deserialize (Json.num 2) = Except.ok true ∧
    bool_from_int_deserialize Json.null = Except.error "invalid type for boolean".data :=
  ⟨by decide, by decide, bool_from_int_spec.2.2.1 2 (by decide) (by decide),
    bool_from_int_spec.2.2.2 Json.null (fun b h => by cases h) (fun n _ _ h => by cases h)⟩

/-! ## Manifest data model (manifest.rs lines 10-268) -/

/-- Rust struct `Column` (manifest.rs lines 161-175). The Rust field r#type
is the declared data type string; properties is a BTreeMap, modelled by its
ordered list of entries. -/
structure Column where
  name : Str
  type : Str
  relationship : Option Str
  is_calculated : Bool
  not_null : Bool
  expression : Option Str
  properties : List (Str × Str)
deriving DecidableEq

/-- Rust `Column::expression()` accessor used by infer_source_column:
the optional expression string of the column. -/
def Column.expr (c : Column) : Option Str :=
  c.expression

/-- Rust struct `Model` (manifest.rs lines 27-44). -/
structure Model where
  name : Str
  ref_sql : Option Str
  base_object : Option Str
  table_reference : Option Str
  columns : List Column
  primary_key : Option Str
  cached : Bool
  refresh_time : Option Str
  properties : List (Str × Str)
deriving DecidableEq

/-- Rust struct `Relationship` (manifest.rs lines 179-186). -/
structure Relationship where
  name : Str
  models : List Str
  join_type : JoinType
  condition : Str
  properties : List (Str × Str)
deriving DecidableEq

/-- Rust enum `TimeUnit` (manifest.rs lines 246-254). -/
inductive TimeUnit where
  | year
  | month
  | day
  | hour
  | minute
  | second
deriving DecidableEq

/-- Rust struct `TimeGrain` (manifest.rs lines 238-244). -/
structure TimeGrain where
  name : Str
  ref_column : Str
  date_parts : List TimeUnit
deriving DecidableEq

/-- Rust struct `Metric` (manifest.rs lines 218-230). -/
structure Metric where
  name : Str
  base_object : Str
  dimension : List Column
  measure : List Column
  time_grain : List TimeGrain
  cached : Bool
  refresh_time : Option Str
  properties : List (Str × Str)
deriving DecidableEq

/-- Rust struct `View` (manifest.rs lines 256-262). -/
structure View where
  name : Str
  statement : Str
  properties : List (Str × Str)
deriving DecidableEq

/-- Rust struct `Manifest` (manifest.rs lines 10-22). -/
structure Manifest where
  catalog : Str
  schema : Str
  models : List Model
  relationships : List Relationship
  metrics : List Metric
  views : List View
deriving DecidableEq

/-! ## Serialization of a Manifest to JSON, mirroring the serde derive
output (field order and camelCase renames as in manifest.rs) -/

/-- Serde serialization of an optional string: None becomes null. -/
def optStrToJson : Option Str → Json
  | none => Json.null
  | some s => Json.str s

/-- Serde_with NoneAsEmptyString serialization: None becomes the empty
string (Column.expression, manifest.rs lines 170-172). -/
def noneAsEmptyToJson : Option Str → Json
  | none => Json.str []
  | some s => Json.str s

/-- Serde serialization of a BTreeMap of string properties. -/
def propsToJson (props : List (Str × Str)) : Json :=
  Json.obj (props.map (fun p => (p.1, Json.str p.2)))

/-- Serde serialization of JoinType with rename_all SCREAMING_SNAKE_CASE
(manifest.rs lines 188-199). -/
def joinTypeToJson : JoinType → Json
  | .oneToOne => Json.str "ONE_TO_ONE".data
  | .oneToMany => Json.str "ONE_TO_MANY".data
  | .manyToOne => Json.str "MANY_TO_ONE".data
  | .manyToMany => Json.str "MANY_TO_MANY".data

/-- Serde serialization of TimeUnit unit variants (manifest.rs 246-254). -/
def timeUnitToJson : TimeUnit → Json
  | .year => Json.str "Year".data
  | .month => Json.str "Month".data
  | .day => Json.str "Day".data
  | .hour => Json.str "Hour".data
  | .minute => Json.str "Minute".data
  | .second => Json.str "Second".data

/-- Serde serialization of the TableReference helper struct
(manifest.rs lines 55-60). -/
def tableReferenceToJson (t : TableReference) : Json :=
  Json.obj [("catalog".data, optStrToJson t.catalog),
            ("schema".data, optStrToJson t.schema),
            ("table".data, optStrToJson t.table)]

/-- Serde serialization of a Column (manifest.rs lines 158-175). -/
def columnToJson (c : Column) : Json :=
  Json.obj [("name".data, Json.str c.name),
            ("type".data, Json.str c.type),
            ("relationship".data, optStrToJson c.relationship),
            ("isCalculated".data, bool_from_int_serialize c.is_calculated),
            ("notNull".data, bool_from_int_serialize c.not_null),
            ("expression".data, noneAsEmptyToJson c.expression),
            ("properties".data, propsToJson c.properties)]

/-- Serde serialization of a Model (manifest.rs lines 24-44); fallible
because the table_reference custom serializer rejects strings with more
than 3 non-empty dotted segments. -/
def modelToJson (m : Model) : Except Str Json := do
  let tr ← table_reference_serialize m.table_reference
  Except.ok (Json.obj [("name".data, Json.str m.name),
    ("refSql".data, optStrToJson m.ref_sql),
    ("baseObject".data, optStrToJson m.base_object),
    ("tableReference".data, tableReferenceToJson tr),
    ("columns".data, Json.arr (m.columns.map columnToJson)),
    ("primaryKey".data, optStrToJson m.primary_key),
    ("cached".data, bool_from_int_serialize m.cached),
    ("refreshTime".data, optStrToJson m.refresh_time),
    ("properties".data, propsToJson m.properties)])

/-- Serde serialization of a Relationship (manifest.rs lines 177-186). -/
def relationshipToJson (r : Relationship) : Json :=
  Json.obj [("name".data, Json.str r.name),
            ("models".data, Json.arr (r.models.map Json.str)),
            ("joinType".data, joinTypeToJson r.join_type),
            ("condition".data, Json.str r.condition),
            ("properties".data, propsToJson r.properties)]

/-- Serde serialization of a TimeGrain (manifest.rs lines 238-244). -/
def timeGrainToJson (tg : TimeGrain) : Json :=
  Json.obj [("name".data, Json.str tg.name),
            ("refColumn".data, Json.str tg.ref_column),
            ("dateParts".data, Json.arr (tg.date_parts.map timeUnitToJson))]

/-- Serde serialization of a Metric (manifest.rs lines 218-230). -/
def metricToJson (mt : Metric) : Json :=
  Json.obj [("name".data, Json.str mt.name),
            ("baseObject".data, Json.str mt.base_object),
            ("dimension".data, Json.arr (mt.dimension.map columnToJson)),
            ("measure".data, Json.arr (mt.measure.map columnToJson)),
            ("timeGrain".data, Json.arr (mt.time_grain.map timeGrainToJson)),
            ("cached".data, bool_from_int_serialize mt.cached),
            ("refreshTime".data, optStrToJson mt.refresh_time),
            ("properties".data, propsToJson mt.properties)]

/-- Serde serialization of a View (manifest.rs lines 256-262). -/
def viewToJson (v : View) : Json :=
  Json.obj [("name".data, Json.str v.name),
            ("statement".data, Json.str v.statement),
            ("properties".data, propsToJson v.properties)]

/-- Serde serialization of a Manifest (manifest.rs lines 10-22). -/
def manifestToJson (m : Manifest) : Except Str Json := do
  let modelsJson ← m.models.mapM modelToJson
  Except.ok (Json.obj [("catalog".data, Json.str m.catalog),
    ("schema".data, Json.str m.schema),
    ("models".data, Json.arr modelsJson),
    ("relationships".data, Json.arr (m.relationships.map relationshipToJson)),
    ("metrics".data, Json.arr (m.metrics.map metricToJson)),
    ("views".data, Json.arr (m.views.map viewToJson))])

/-! ## Deserialization of a Manifest from JSON, mirroring the serde derive
semantics: fields are looked up by name, serde(default) fields and Option
fields tolerate a missing key, all other fields require one -/

/-- Lookup of an object field by key, as serde does when visiting a map. -/
def getField : List (Str × Json) → Str → Option Json
  | [], _ => none
  | (k, v) :: rest, key => if k = key then some v else getField rest key

/-- Decoding of a JSON string. -/
def decodeStr : Json → Except Str Str
  | .str s => Except.ok s
  | _ => Except.error "invalid type: expected a string".data

/-- Decoding of an optional string: null maps to None. -/
def decodeOptStr : Json → Except Str (Option Str)
  | .null => Except.ok none
  | .str s => Except.ok (some s)
  | _ => Except.error "invalid type: expected a string or null".data

/-- Required string field. -/
def decodeStrField (fields : List (Str × Json)) (key : Str) : Except Str Str :=
  match getField fields key with
  | some j => decodeStr j
  | none => Except.error ("missing field ".data ++ key)

/-- Optional string field: a missing key is None. -/
def decodeOptStrField (fields : List (Str × Json)) (key : Str) : Except Str (Option Str) :=
  match getField fields key with
  | some j => decodeOptStr j
  | none => Except.ok none

/-- Boolean field decoded through bool_from_int, with serde(default):
a missing key is false. -/
def decodeBoolFromIntField (fields : List (Str × Json)) (key : Str) : Except Str Bool :=
  match getField fields key with
  | some j => bool_from_int_deserialize j
  | none => Except.ok false

/-- Serde_with NoneAsEmptyString decoding: an empty string is None. -/
def decodeNoneAsEmpty : Json → Except Str (Option Str)
  | .str s => Except.ok (if s.isEmpty then none else some s)
  | _ => Except.error "invalid type: expected a string".data

/-- Serde_with NoneAsEmptyString field with serde(default): a present
string is None when empty, a missing key is None. -/
def decodeNoneAsEmptyField (fields : List (Str × Json)) (key : Str) :
    Except Str (Option Str) :=
  match getField fields key with
  | some j => decodeNoneAsEmpty j
  | none => Except.ok none

/-- Decoding of a string-to-string properties map. -/
def decodeProps : Json → Except Str (List (Str × Str))
  | .obj fields => fields.mapM (fun p =>
      match p.2 with
      | .str s => Except.ok (p.1, s)
      | _ => Except.error "invalid type: expected a string".data)
  | _ => Except.error "invalid type: expected an object".data

/-- Properties field with serde(default): a missing key is the empty map. -/
def decodePropsFieldD (fields : List (Str × Json)) (key : Str) :
    Except Str (List (Str × Str)) :=
  match getField fields key with
  | some j => decodeProps j
  | none => Except.ok []

/-- Required properties field (Metric.properties carries no default). -/
def decodePropsFieldReq (fields : List (Str × Json)) (key : Str) :
    Except Str (List (Str × Str)) :=
  match getField fields key with
  | some j => decodeProps j
  | none => Except.error ("missing field ".data ++ key)

/-- Decoding of a JSON array elementwise. -/
def decodeList {α : Type} (dec : Json → Except Str α) : Json → Except Str (List α)
  | .arr elems => elems.mapM dec
  | _ => Except.error "invalid type: expected an array".data

/-- List field with serde(default): a missing key is the empty list. -/
def decodeListFieldD {α : Type} (dec : Json → Except Str α)
    (fields : List (Str × Json)) (key : Str) : Except Str (List α) :=
  match getField fields key with
  | some j => decodeList dec j
  | none => Except.ok []

/-- Required list field. -/
def decodeListFieldReq {α : Type} (dec : Json → Except Str α)
    (fields : List (Str × Json)) (key : Str) : Except Str (List α) :=
  match getField fields key with
  | some j => decodeList dec j
  | none => Except.error ("missing field ".data ++ key)

/-- Decoding of JoinType: SCREAMING_SNAKE_CASE names and the legacy
snake_case aliases (manifest.rs lines 188-199). -/
def decodeJoinType : Json → Except Str JoinType
  | .str s =>
      if s = "ONE_TO_ONE".data then Except.ok JoinType.oneToOne
      else if s = "one_to_one".data then Except.ok JoinType.oneToOne
      else if s = "ONE_TO_MANY".data then Except.ok JoinType.oneToMany
      else if s = "one_to_many".data then Except.ok JoinType.oneToMany
      else if s = "MANY_TO_ONE".data then Except.ok JoinType.manyToOne
      else if s = "many_to_one".data then Except.ok JoinType.manyToOne
      else if s = "MANY_TO_MANY".data then Except.ok JoinType.manyToMany
      else if s = "many_to_many".data then Except.ok JoinType.manyToMany
      else Except.error "unknown variant for JoinType".data
  | _ => Except.error "invalid type for JoinType".data

/-- Decoding of TimeUnit unit variants. -/
def decodeTimeUnit : Json → Except Str TimeUnit
  | .str s =>
      if s = "Year".data then Except.ok TimeUnit.year
      else if s = "Month".data then Except.ok TimeUnit.month
      else if s = "Day".data then Except.ok TimeUnit.day
      else if s = "Hour".data then Except.ok TimeUnit.hour
      else if s = "Minute".data then Except.ok TimeUnit.minute
      else if s = "Second".data then Except.ok TimeUnit.second
      else Except.error "unknown variant for TimeUnit".data
  | _ => Except.error "invalid type for TimeUnit".data

/-- Decoding of the TableReference helper struct: every field is an
Option, so a missing key is None. -/
def tableReferenceFromJson : Json → Except Str TableReference
  | .obj fields => do
      let catalog ← decodeOptStrField fields "catalog".data
      let schema ← decodeOptStrField fields "schema".data
      let table ← decodeOptStrField fields "table".data
      Except.ok ⟨catalog, schema, table⟩
  | _ => Except.error "invalid type: expected an object".data

/-- Model.table_reference field: serde(default) with the custom
table_reference::deserialize flattening (manifest.rs lines 33-34, 62-88). -/
def decodeTableRefField (fields : List (Str × Json)) : Except Str (Option Str) :=
  match getField fields "tableReference".data with
  | some j => do
      let tr ← tableReferenceFromJson j
      Except.ok (table_reference_deserialize tr)
  | none => Except.ok none

/-- Deserialization of a Column (manifest.rs lines 158-175). -/
def columnFromJson : Json → Except Str Column
  | .obj fields => do
      let name ← decodeStrField fields "name".data
      let ctype ← decodeStrField fields "type".data
      let relationship ← decodeOptStrField fields "relationship".data
      let is_calculated ← decodeBoolFromIntField fields "isCalculated".data
      let not_null ← decodeBoolFromIntField fields "notNull".data
      let expression ← decodeNoneAsEmptyField fields "expression".data
      let properties ← decodePropsFieldD fields "properties".data
      Except.ok ⟨name, ctype, relationship, is_calculated, not_null, expression, properties⟩
  | _ => Except.error "invalid type: expected an object".data

/-- Deserialization of a Model (manifest.rs lines 24-44). -/
def modelFromJson : Json → Except Str Model
  | .obj fields => do
      let name ← decodeStrField fields "name".data
      let ref_sql ← decodeOptStrField fields "refSql".data
      let base_object ← decodeOptStrField fields "baseObject".data
      let table_reference ← decodeTableRefField fields
      let columns ← decodeListFieldReq columnFromJson fields "columns".data
      let primary_key ← decodeOptStrField fields "primaryKey".data
      let cached ← decodeBoolFromIntField fields "cached".data
      let refresh_time ← decodeOptStrField fields "refreshTime".data
      let properties ← decodePropsFieldD fields "properties".data
      Except.ok ⟨name, ref_sql, base_object, table_reference, columns, primary_key,
        cached, refresh_time, properties⟩
  | _ => Except.error "invalid type: expected an object".data

/-- Deserialization of a Relationship (manifest.rs lines 177-186). -/
def relationshipFromJson : Json → Except Str Relationship
  | .obj fields => do
      let name ← decodeStrField fields "name".data
      let models ← decodeListFieldReq decodeStr fields "models".data
      let join_type ←
        match getField fields "joinType".data with
        | some j => decodeJoinType j
        | none => Except.error "missing field joinType".data
      let condition ← decodeStrField fields "condition".data
      let properties ← decodePropsFieldD fields "properties".data
      Except.ok ⟨name, models, join_type, condition, properties⟩
  | _ => Except.error "invalid type: expected an object".data

/-- Deserialization of a TimeGrain (manifest.rs lines 238-244). -/
def timeGrainFromJson : Json → Except Str TimeGrain
  | .obj fields => do
      let name ← decodeStrField fields "name".data
      let ref_column ← decodeStrField fields "refColumn".data
      let date_parts ← decodeListFieldReq decodeTimeUnit fields "dateParts".data
      Except.ok ⟨name, ref_column, date_parts⟩
  | _ => Except.error "invalid type: expected an object".data

/-- Deserialization of a Metric (manifest.rs lines 218-230). -/
def metricFromJson : Json → Except Str Metric
  | .obj fields => do
      let name ← decodeStrField fields "name".data
      let base_object ← decodeStrField fields "baseObject".data
      let dimension ← decodeListFieldReq columnFromJson fields "dimension".data
      let measure ← decodeListFieldReq columnFromJson fields "measure".data
      let time_grain ← decodeListFieldReq timeGrainFromJson fields "timeGrain".data
      let cached ← decodeBoolFromIntField fields "cached".data
      let refresh_time ← decodeOptStrField fields "refreshTime".data
      let properties ← decodePropsFieldReq fields "properties".data
      Except.ok ⟨name, base_object, dimension, measure, time_grain, cached,
        refresh_time, properties⟩
  | _ => Except.error "invalid type: expected an object".data

/-- Deserialization of a View (manifest.rs lines 256-262). -/
def viewFromJson : Json → Except Str View
  | .obj fields => do
      let name ← decodeStrField fields "name".data
      let statement ← decodeStrField fields "statement".data
      let properties ← decodePropsFieldD fields "properties".data
      Except.ok ⟨name, statement, properties⟩
  | _ => Except.error "invalid type: expected an object".data

/-- Deserialization of a Manifest (manifest.rs lines 10-22). -/
def manifestFromJson : Json → Except Str Manifest
  | .obj fields => do
      let catalog ← decodeStrField fields "catalog".data
      let schema ← decodeStrField fields "schema".data
      let models ← decodeListFieldD modelFromJson fields "models".data
      let relationships ← decodeListFieldD relationshipFromJson fields "relationships".data
      let metrics ← decodeListFieldD metricFromJson fields "metrics".data
      let views ← decodeListFieldD viewFromJson fields "views".data
      Except.ok ⟨catalog, schema, models, relationships, metrics, views⟩
  | _ => Except.error "invalid type: expected an object".data

/-! ## Round-trip lemmas for the serde embedding -/

theorem mapM_map_eq_ok {α β : Type} (enc : α → β) (dec : β → Except Str α) (l : List α)
    (h : ∀ x ∈ l, dec (enc x) = Except.ok x) : (l.map enc).mapM dec = Except.ok l := by
  induction l with
  | nil => rfl
  | cons x xs ih =>
    simp only [List.map_cons, List.mapM_cons, h x (List.mem_cons_self x xs),
      ih (fun z hz => h z (List.mem_cons_of_mem x hz))]
    rfl

theorem mapM_roundtrip {α β : Type} (f : α → Except Str β) (g : β → Except Str α)
    (l : List α) (hf : ∀ x ∈ l, ∃ y, f x = Except.ok y ∧ g y = Except.ok x) :
    ∃ ys, l.mapM f = Except.ok ys ∧ ys.mapM g = Except.ok l := by
  induction l with
  | nil => exact ⟨[], rfl, rfl⟩
  | cons x xs ih =>
    obtain ⟨y, hy1, hy2⟩ := hf x (List.mem_cons_self x xs)
    obtain ⟨ys, hys1, hys2⟩ := ih (fun z hz => hf z (List.mem_cons_of_mem x hz))
    refine ⟨y :: ys, ?_, ?_⟩
    · simp only [List.mapM_cons, hy1, hys1]
      rfl
    · simp only [List.mapM_cons, hy2, hys2]
      rfl

theorem except_ok_bind {α β : Type} (a : α) (f : α → Except Str β) :
    (Except.ok a : Except Str α) >>= f = f a := rfl

theorem optStr_roundtrip (o : Option Str) :
    decodeOptStr (optStrToJson o) = Except.ok o := by
  cases o <;> rfl

theorem noneAsEmpty_roundtrip (o : Option Str) (h : o ≠ some []) :
    decodeNoneAsEmpty (noneAsEmptyToJson o) = Except.ok o := by
  rcases o with _ | s
  · rfl
  · have hs : s ≠ [] := fun hs => h (by rw [hs])
    simp [noneAsEmptyToJson, decodeNoneAsEmpty, nonempty_isEmpty_false hs]

theorem props_roundtrip (l : List (Str × Str)) :
    decodeProps (propsToJson l) = Except.ok l := by
  simp only [propsToJson, decodeProps]
  apply mapM_map_eq_ok
  intro p hp
  obtain ⟨k, v⟩ := p
  rfl

theorem joinType_roundtrip (jt : JoinType) :
    decodeJoinType (joinTypeToJson jt) = Except.ok jt := by
  cases jt <;> rfl

theorem timeUnit_roundtrip (u : TimeUnit) :
    decodeTimeUnit (timeUnitToJson u) = Except.ok u := by
  cases u <;> rfl

theorem strList_roundtrip (l : List Str) :
    decodeList decodeStr (Json.arr (l.map Json.str)) = Except.ok l := by
  simp only [decodeList]
  apply mapM_map_eq_ok
  intro s _
  rfl

theorem tableReference_struct_roundtrip (t : TableReference) :
    tableReferenceFromJson (tableReferenceToJson t) = Except.ok t := by
  obtain ⟨catalog, schema, table⟩ := t
  rcases catalog with _ | c <;> rcases schema with _ | sc <;> rcases table with _ | tb <;> rfl

theorem column_roundtrip (c : Column) (hexp : c.expression ≠ some []) :
    columnFromJson (columnToJson c) = Except.ok c := by
  obtain ⟨name, ctype, relationship, is_calculated, not_null, expression, properties⟩ := c
  simp only at hexp
  simp [columnToJson, columnFromJson, decodeStrField, decodeOptStrField,
    decodeBoolFromIntField, decodeNoneAsEmptyField, decodePropsFieldD, getField,
    decodeStr, optStr_roundtrip, noneAsEmpty_roundtrip _ hexp, props_roundtrip,
    bool_from_int_deserialize, bool_from_int_serialize]
  rfl

theorem timeGrain_roundtrip (tg : TimeGrain) :
    timeGrainFromJson (timeGrainToJson tg) = Except.ok tg := by
  obtain ⟨name, ref_column, date_parts⟩ := tg
  have hdp : decodeList decodeTimeUnit (Json.arr (date_parts.map timeUnitToJson)) =
      Except.ok date_parts := by
    simp only [decodeList]
    exact mapM_map_eq_ok _ _ _ (fun u _ => timeUnit_roundtrip u)
  simp [timeGrainToJson, timeGrainFromJson, decodeStrField, decodeListFieldReq,
    getField, decodeStr, hdp]
  rfl

theorem view_roundtrip (v : View) : viewFromJson (viewToJson v) = Except.ok v := by
  obtain ⟨name, statement, properties⟩ := v
  simp [viewToJson, viewFromJson, decodeStrField, decodePropsFieldD, getField,
    decodeStr, props_roundtrip]
  rfl

theorem relationship_roundtrip (r : Relationship) :
    relationshipFromJson (relationshipToJson r) = Except.ok r := by
  obtain ⟨name, models, join_type, condition, properties⟩ := r
  simp [relationshipToJson, relationshipFromJson, decodeStrField, decodeListFieldReq,
    getField, decodeStr, strList_roundtrip, joinType_roundtrip,
    decodePropsFieldD, props_roundtrip]
  rfl

theorem metric_roundtrip (mt : Metric)
    (hdim : ∀ c ∈ mt.dimension, c.expression ≠ some [])
    (hmea : ∀ c ∈ mt.measure, c.expression ≠ some []) :
    metricFromJson (metricToJson mt) = Except.ok mt := by
  obtain ⟨name, base_object, dimension, measure, time_grain, cached, refresh_time,
    properties⟩ := mt
  simp only at hdim hmea
  have hd : decodeList columnFromJson (Json.arr (dimension.map columnToJson)) =
      Except.ok dimension := by
    simp only [decodeList]
    exact mapM_map_eq_ok _ _ _ (fun c hc => column_roundtrip c (hdim c hc))
  have hm : decodeList columnFromJson (Json.arr (measure.map columnToJson)) =
      Except.ok measure := by
    simp only [decodeList]
    exact mapM_map_eq_ok _ _ _ (fun c hc => column_roundtrip c (hmea c hc))
  have htg : decodeList timeGrainFromJson (Json.arr (time_grain.map timeGrainToJson)) =
      Except.ok time_grain := by
    simp only [decodeList]
    exact mapM_map_eq_ok _ _ _ (fun tg _ => timeGrain_roundtrip tg)
  simp [metricToJson, metricFromJson, decodeStrField, decodeListFieldReq,
    decodeBoolFromIntField, decodeOptStrField, decodePropsFieldReq, getField,
    decodeStr, optStr_roundtrip, props_roundtrip, bool_from_int_deserialize,
    bool_from_int_serialize, hd, hm, htg]
  rfl

/-- Validity of an optional table reference string: when present it is a
dotted path of 1 to 3 non-empty segments, the domain on which the custom
serializer succeeds and round-trips. -/
def validTableRefOpt : Option Str → Prop
  | none => True
  | some s => (s.splitOn '.').length ≤ 3 ∧ ∀ p ∈ s.splitOn '.', p ≠ []

instance validTableRefOpt.instDecidable : (o : Option Str) → Decidable (validTableRefOpt o)
  | none => Decidable.isTrue trivial
  | some _ => inferInstanceAs (Decidable (_ ∧ _))

theorem model_roundtrip (m : Model) (htr : validTableRefOpt m.table_reference)
    (hcols : ∀ c ∈ m.columns, c.expression ≠ some []) :
    ∃ j, modelToJson m = Except.ok j ∧ modelFromJson j = Except.ok m := by
  obtain ⟨name, ref_sql, base_object, table_reference, columns, primary_key, cached,
    refresh_time, properties⟩ := m
  simp only at htr hcols
  have hcol : decodeList columnFromJson (Json.arr (columns.map columnToJson)) =
      Except.ok columns := by
    simp only [decodeList]
    exact mapM_map_eq_ok _ _ _ (fun c hc => column_roundtrip c (hcols c hc))
  obtain ⟨tr, hser, hdeser⟩ :
      ∃ tr, table_reference_serialize table_reference = Except.ok tr ∧
        table_reference_deserialize tr = table_reference := by
    rcases table_reference with _ | s
    · exact ⟨⟨none, none, none⟩, rfl, rfl⟩
    · obtain ⟨tr, h1, h2⟩ := table_reference_ser_deser htr.1 htr.2
      exact ⟨tr, h1, h2⟩
  have henc : modelToJson ⟨name, ref_sql, base_object, table_reference, columns,
      primary_key, cached, refresh_time, properties⟩ =
      Except.ok (Json.obj [("name".data, Json.str name),
        ("refSql".data, optStrToJson ref_sql),
        ("baseObject".data, optStrToJson base_object),
        ("tableReference".data, tableReferenceToJson tr),
        ("columns".data, Json.arr (columns.map columnToJson)),
        ("primaryKey".data, optStrToJson primary_key),
        ("cached".data, bool_from_int_serialize cached),
        ("refreshTime".data, optStrToJson refresh_time),
        ("properties".data, propsToJson properties)]) := by
    simp only [modelToJson, hser]
    rfl
  refine ⟨_, henc, ?_⟩
  simp [modelFromJson, decodeStrField, decodeOptStrField, decodeTableRefField,
    decodeBoolFromIntField, decodeListFieldReq, decodePropsFieldD, getField,
    decodeStr, optStr_roundtrip, props_roundtrip, bool_from_int_deserialize,
    bool_from_int_serialize, hcol, tableReference_struct_roundtrip, except_ok_bind, hdeser]

/-- Well-formedness of a Manifest for the serialization round-trip: every
table reference is a valid dotted path and no column expression is the
present-but-empty string (the NoneAsEmptyString encoding cannot represent
it). -/
def Manifest.wellFormed (m : Manifest) : Prop :=
  (∀ md ∈ m.models, validTableRefOpt md.table_reference ∧
    ∀ c ∈ md.columns, c.expression ≠ some []) ∧
  (∀ mt ∈ m.metrics, (∀ c ∈ mt.dimension, c.expression ≠ some []) ∧
    ∀ c ∈ mt.measure, c.expression ≠ some [])

instance Manifest.wellFormed.instDecidable (m : Manifest) :
    Decidable (Manifest.wellFormed m) := by
  unfold Manifest.wellFormed
  infer_instance

/-- Claim C6 as amended: a Manifest whose table reference strings are
valid dotted paths and whose column expressions are never the present
empty string serializes to JSON and deserializes back to a structurally
equal Manifest. -/
theorem manifest_roundtrip (m : Manifest) (h : Manifest.wellFormed m) :
    ∃ j, manifestToJson m = Except.ok j ∧ manifestFromJson j = Except.ok m := by
  obtain ⟨catalog, schema, models, relationships, metrics, views⟩ := m
  obtain ⟨hmods, hmets⟩ := h
  simp only at hmods hmets
  obtain ⟨modelsJson, hm1, hm2⟩ := mapM_roundtrip modelToJson modelFromJson models
    (fun md hmd => model_roundtrip md (hmods md hmd).1 (hmods md hmd).2)
  have hmodsDec : decodeList modelFromJson (Json.arr modelsJson) = Except.ok models := hm2
  have hrel : decodeList relationshipFromJson
      (Json.arr (relationships.map relationshipToJson)) = Except.ok relationships := by
    simp only [decodeList]
    exact mapM_map_eq_ok _ _ _ (fun r _ => relationship_roundtrip r)
  have hmet : decodeList metricFromJson (Json.arr (metrics.map metricToJson)) =
      Except.ok metrics := by
    simp only [decodeList]
    exact mapM_map_eq_ok _ _ _ (fun mt hmt => metric_roundtrip mt (hmets mt hmt).1 (hmets mt hmt).2)
  have hview : decodeList viewFromJson (Json.arr (views.map viewToJson)) =
      Except.ok views := by
    simp only [decodeList]
    exact mapM_map_eq_ok _ _ _ (fun v _ => view_roundtrip v)
  have henc : manifestToJson ⟨catalog, schema, models, relationships, metrics, views⟩ =
      Except.ok (Json.obj [("catalog".data, Json.str catalog),
        ("schema".data, Json.str schema),
        ("models".data, Json.arr modelsJson),
        ("relationships".data, Json.arr (relationships.map relationshipToJson)),
        ("metrics".data, Json.arr (metrics.map metricToJson)),
        ("views".data, Json.arr (views.map viewToJson))]) := by
    simp only [manifestToJson, hm1]
    rfl
  refine ⟨_, henc, ?_⟩
  simp [manifestFromJson, decodeStrField, decodeListFieldD, getField, decodeStr,
    hmodsDec, hrel, hmet, hview, except_ok_bind]

/-- Concrete manifest used for the C6 witness: one model with a 2-segment
table reference, one relationship and one view. -/
def sampleManifest : Manifest :=
  ⟨"test".data, "test".data,
    [⟨"orders".data, none, none, some "a.b".data,
      [⟨"o_orderkey".data, "int".data, none, false, false, none, []⟩,
       ⟨"o_custkey".data, "int".data, none, false, true, some "key".data,
         [("desc".data, "key col".data)]⟩],
      some "o_orderkey".data, false, none, []⟩],
    [⟨"rel".data, ["orders".data, "customer".data], JoinType.manyToOne,
      "orders.o_custkey = customer.c_custkey".data, []⟩],
    [],
    [⟨"v".data, "select 1".data, []⟩]⟩

/-- Closed witness for the amended claim C6 at sampleManifest. -/
theorem manifest_roundtrip_witness :
    Manifest.wellFormed sampleManifest ∧
    (∃ j, manifestToJson sampleManifest = Except.ok j ∧
      manifestFromJson j = Except.ok sampleManifest) :=
  ⟨by decide, manifest_roundtrip sampleManifest (by decide)⟩

/-- Concrete manifest whose single column expression is the present empty
string, the value the NoneAsEmptyString encoding cannot represent. -/
def emptyExprManifest : Manifest :=
  ⟨"c".data, "s".data,
    [⟨"m".data, none, none, none,
      [⟨"col".data, "int".data, none, false, false, some [], []⟩],
      none, false, none, []⟩],
    [], [], []⟩

/-- The manifest emptyExprManifest becomes after a round-trip: the empty
expression string has collapsed to no expression. -/
def emptyExprManifestAfter : Manifest :=
  ⟨"c".data, "s".data,
    [⟨"m".data, none, none, none,
      [⟨"col".data, "int".data, none, false, false, none, []⟩],
      none, false, none, []⟩],
    [], [], []⟩

/-- Counterexample to claim C6 as stated: the manifest whose column
expression is Some of the empty string serializes successfully but
deserializes to a structurally different Manifest, because the
empty-string-as-None expression encoding conflates Some empty with None. -/
theorem manifest_roundtrip_counterexample :
    (manifestToJson emptyExprManifest).bind manifestFromJson =
      Except.ok emptyExprManifestAfter ∧
    emptyExprManifestAfter ≠ emptyExprManifest :=
  ⟨rfl, by decide⟩

/-! ## Model Index: qualified references built by WrenMDL::new
(mdl/mod.rs lines 110-166) -/

/-- Modelled from the spec: the Dataset tagged union of section 3 of the
specification (Model or Metric), defined in mdl/dataset.rs which is not
under src/; it is the owner of a set of resolvable columns. -/
inductive Dataset where
  | model (m : Model)
  | metric (m : Metric)
deriving DecidableEq

/-- Modelled from the spec: the name accessor of a Dataset, the dataset
component of a qualified name. -/
def Dataset.name : Dataset → Str
  | .model m => m.name
  | .metric m => m.name

/-- Modelled from the spec: from_qualified_name_str, defined in
crate::logical_plan::utils which is not under src/, builds the four-part
qualified name catalog.schema.dataset.column used as the exact-match
lookup key of the Model Index. -/
structure QualifiedColumn where
  catalog : Str
  schema : Str
  dataset : Str
  column : Str
deriving DecidableEq

/-- Modelled from the spec: construction of the four-part key. -/
def from_qualified_name_str (catalog schema dataset column : Str) : QualifiedColumn :=
  ⟨catalog, schema, dataset, column⟩

/-- Rust struct `ColumnReference` (mdl/mod.rs lines 411-425). -/
structure ColumnReference where
  dataset : Dataset
  column : Column
deriving DecidableEq

/-- Rust `ColumnReference::new` (mdl/mod.rs lines 418-420). -/
def ColumnReference.new (dataset : Dataset) (column : Column) : ColumnReference :=
  ⟨dataset, column⟩

/-- Rust `WrenMDL::new` (mdl/mod.rs lines 111-166), restricted to the
qualified_references HashMap it builds: the inserts in program order,
every model column first, then for each metric its dimensions and its
measures. A HashMap lookup observes the last insert of a key. -/
def wrenMDLInserts (manifest : Manifest) : List (QualifiedColumn × ColumnReference) :=
  (manifest.models.flatMap (fun model =>
    model.columns.map (fun column =>
      (from_qualified_name_str manifest.catalog manifest.schema model.name column.name,
        ColumnReference.new (Dataset.model model) column)))) ++
  (manifest.metrics.flatMap (fun metric =>
    metric.dimension.map (fun dimension =>
      (from_qualified_name_str manifest.catalog manifest.schema metric.name dimension.name,
        ColumnReference.new (Dataset.metric metric) dimension)) ++
    metric.measure.map (fun measure =>
      (from_qualified_name_str manifest.catalog manifest.schema metric.name measure.name,
        ColumnReference.new (Dataset.metric metric) measure))))

/-- The (dataset name, column name) pairs whose keys WrenMDL::new inserts:
each model column and each metric dimension and measure. -/
def datasetColumnPairs (manifest : Manifest) : List (Str × Str) :=
  (manifest.models.flatMap (fun model =>
    model.columns.map (fun c => (model.name, c.name)))) ++
  (manifest.metrics.flatMap (fun metric =>
    metric.dimension.map (fun c => (metric.name, c.name)) ++
    metric.measure.map (fun c => (metric.name, c.name))))

/-- Claim C4: the keys inserted by WrenMDL::new are exactly the qualified
names of the (dataset, column) pairs of the manifest, and any two pairs
that differ in dataset name or column name receive distinct keys, because
the key contains the dataset name and the column name as separate
components. -/
theorem wrenMDL_qualified_references_distinct (manifest : Manifest) :
    ((wrenMDLInserts manifest).map Prod.fst =
      (datasetColumnPairs manifest).map (fun p =>
        from_qualified_name_str manifest.catalog manifest.schema p.1 p.2))
    ∧ (∀ p ∈ datasetColumnPairs manifest, ∀ q ∈ datasetColumnPairs manifest, p ≠ q →
        from_qualified_name_str manifest.catalog manifest.schema p.1 p.2 ≠
          from_qualified_name_str manifest.catalog manifest.schema q.1 q.2) := by
  constructor
  · simp only [wrenMDLInserts, datasetColumnPairs, List.map_append, List.map_flatMap,
      List.map_map]
    congr 1
  · intro p _ q _ hne heq
    apply hne
    have h1 : p.1 = q.1 := congrArg QualifiedColumn.dataset heq
    have h2 : p.2 = q.2 := congrArg QualifiedColumn.column heq
    exact Prod.ext h1 h2

/-- Closed witness for claim C4 at sampleManifest: the two columns of the
orders model are distinct pairs and receive distinct keys. -/
theorem wrenMDL_qualified_references_distinct_witness :
    ("orders".data, "o_orderkey".data) ∈ datasetColumnPairs sampleManifest ∧
    ("orders".data, "o_custkey".data) ∈ datasetColumnPairs sampleManifest ∧
    from_qualified_name_str sampleManifest.catalog sampleManifest.schema
      "orders".data "o_orderkey".data ≠
      from_qualified_name_str sampleManifest.catalog sampleManifest.schema
        "orders".data "o_custkey".data :=
  ⟨by decide, by decide,
    (wrenMDL_qualified_references_distinct sampleManifest).2
      ("orders".data, "o_orderkey".data) (by decide)
      ("orders".data, "o_custkey".data) (by decide) (by decide)⟩

/-! ## Source column inference (WrenMDL::infer_source_column,
mdl/mod.rs lines 197-244) -/

/-- Sqlparser `Ident`: only the identifier value is inspected by
collect_one_column. -/
structure Ident where
  value : Str
deriving DecidableEq

/-- Fragment of the sqlparser `Expr` AST distinguished by
collect_one_column (mdl/mod.rs lines 238-244): a bare identifier, a
compound dotted identifier, or any other expression shape (function
calls, arithmetic, literals and so on). -/
inductive SqlExpr where
  | identifier (ident : Ident)
  | compoundIdentifier (idents : List Ident)
  | otherExpr
deriving DecidableEq

/-- Arrow `Field` as produced by infer_source_column: a name, a data type
and the nullability flag. The external map_data_type conversion is a
parameter below, so the data type is represented by its image. -/
structure Field where
  name : Str
  data_type : Str
  nullable : Bool
deriving DecidableEq

/-- Rust `WrenMDL::collect_one_column` (mdl/mod.rs lines 238-244): the
last identifier of a compound identifier, a bare identifier itself,
nothing otherwise. -/
def collect_one_column : SqlExpr → Option Ident
  | .compoundIdentifier idents => idents.getLast?
  | .identifier ident => some ident
  | .otherExpr => none

/-- Rust `Column::to_field` (mdl/dataset.rs, not under src/). Modelled
from the spec: a column with no expression contributes a field of its
declared type and nullability, named identically. The source passes the
not_null flag of the column as the field flag. -/
def Column.to_field (mdt : Str → Str) (c : Column) : Field :=
  ⟨c.name, mdt c.type, c.not_null⟩

/-- Rust `WrenMDL::infer_source_column` (mdl/mod.rs lines 205-223). The
external expression parser sql_to_expr (datafusion, a black box; parse
failure is the None result of the parameter) and the external
map_data_type conversion are parameters. -/
def infer_source_column (parse : Str → Option SqlExpr) (mdt : Str → Str)
    (column : Column) : Option Field :=
  if column.is_calculated || column.relationship.isSome then
    none
  else
    match Column.expr column with
    | some expression =>
        match parse expression with
        | some expr =>
            (collect_one_column expr).map (fun name =>
              ⟨name.value, mdt column.type, column.not_null⟩)
        | none => none
    | none => some (Column.to_field mdt column)

/-- Claim C5: infer_source_column returns nothing for calculated or
relationship-bearing columns; a field named like the column with its
declared type and nullability when there is no expression; and when an
expression is present, a field exactly when the expression parses as a
bare identifier or a compound identifier chain, named by the final
identifier of the chain, with type and nullability from the declaration;
any other parse outcome contributes no field. -/
theorem infer_source_column_spec (parse : Str → Option SqlExpr) (mdt : Str → Str)
    (c : Column) :
    ((c.is_calculated = true ∨ c.relationship.isSome = true) →
      infer_source_column parse mdt c = none)
    ∧ (c.is_calculated = false → c.relationship = none → c.expression = none →
      infer_source_column parse mdt c = some ⟨c.name, mdt c.type, c.not_null⟩)
    ∧ (∀ e, c.is_calculated = false → c.relationship = none → c.expression = some e →
      ((∀ i, parse e = some (SqlExpr.identifier i) →
          infer_source_column parse mdt c = some ⟨i.value, mdt c.type, c.not_null⟩)
        ∧ (∀ is i, parse e = some (SqlExpr.compoundIdentifier is) →
            is.getLast? = some i →
            infer_source_column parse mdt c = some ⟨i.value, mdt c.type, c.not_null⟩)
        ∧ (parse e = some SqlExpr.otherExpr → infer_source_column parse mdt c = none)
        ∧ (parse e = none → infer_source_column parse mdt c = none))) := by
  refine ⟨?_, ?_, ?_⟩
  · intro h
    rcases h with h | h <;>
      simp [infer_source_column, h]
  · intro h1 h2 h3
    simp [infer_source_column, Column.expr, Column.to_field, h1, h2, h3]
  · intro e h1 h2 h3
    refine ⟨?_, ?_, ?_, ?_⟩
    · intro i hp
      simp [infer_source_column, Column.expr, h1, h2, h3, hp, collect_one_column]
    · intro is i hp hl
      simp [infer_source_column, Column.expr, h1, h2, h3, hp, collect_one_column, hl]
    · intro hp
      simp [infer_source_column, Column.expr, h1, h2, h3, hp, collect_one_column]
    · intro hp
      simp [infer_source_column, Column.expr, h1, h2, h3, hp]

/-- Concrete parser used by the C5 witness: recognizes the single
expression key as a bare identifier. -/
def sampleParse : Str → Option SqlExpr := fun s =>
  if s = "key".data then some (SqlExpr.identifier ⟨"key".data⟩) else none

/-- Concrete column used by the C5 witness. -/
def sampleColumn : Column :=
  ⟨"o_custkey".data, "int".data, none, false, false, some "key".data, []⟩

/-- Closed witness for claim C5 at sampleColumn under sampleParse. -/
theorem infer_source_column_spec_witness :
    sampleColumn.is_calculated = false ∧ sampleColumn.relationship = none ∧
    sampleColumn.expression = some "key".data ∧
    sampleParse "key".data = some (SqlExpr.identifier ⟨"key".data⟩) ∧
    infer_source_column sampleParse (fun t => t) sampleColumn =
      some ⟨"key".data, "int".data, false⟩ :=
  ⟨rfl, rfl, rfl, by decide,
    ((infer_source_column_spec sampleParse (fun t => t) sampleColumn).2.2
      "key".data rfl rfl rfl).1 ⟨"key".data⟩ (by decide)⟩

end Wren
